import Mathlib

/-!
# Virtual TV station — broadcast clock and transcoder supervisor

Shallow embedding of the core of `src/main.go` (the HLS/LLHLS variant, the
one the repository builds): the broadcast-clock position calculation
(`calculateCurrentPosition`), the FFmpeg supervisor lifecycle (`startFFmpeg`,
`stopFFmpeg`, the idle watchdog loop body, the reaper goroutine), the viewer
registry read path (`getViewerStats`), and genesis persistence
(`loadGenesis`).

Modelling conventions:
* wall-clock instants and durations are rationals (seconds); Go `time.Time`
  arithmetic and `float64` arithmetic are modelled exactly over `ℚ`;
* Unix timestamps (`time.Now().Unix()`, `Genesis.StartTime`) are integers;
* file-system and process effects are reduced to the state they leave in the
  `StreamManager` (flags and timestamps) plus explicit outputs (returned
  error, signal sent); environmental nondeterminism (did the launch succeed,
  did the playlist file appear) is passed in as a boolean parameter;
* the Playback Controller (pause/resume/seek) is absent from `src/main.go`;
  it is modelled from the spec, and clearly marked as such.
-/

namespace VTV

/-! ## Configuration constants (src/main.go lines 27-37) -/

/-- `SegmentDurationHLS = 4` (seconds per standard HLS segment). -/
def SegmentDurationHLS : ℤ := 4

/-- `SegmentDurationLLHLS = 1` (seconds per low-latency segment). -/
def SegmentDurationLLHLS : ℤ := 1

/-- `IdleTimeout = 30 * time.Second`, in seconds. -/
def IdleTimeout : ℚ := 30

/-- The viewer activity window: `cutoff := time.Now().Add(-60 * time.Second)`
in `getViewerStats`, i.e. 60 seconds. -/
def ActivityWindow : ℚ := 60

/-! ## Position calculation (src/main.go lines 316-331) -/

/-- Go conversion `int64(x)` for a `float64` value truncates toward zero. -/
def goTrunc (q : ℚ) : ℤ := if 0 ≤ q then ⌊q⌋ else ⌈q⌉

/-- The loop body of
`for seekTime >= sm.videoDuration { seekTime -= sm.videoDuration }`,
iterated at most `fuel` times.  (In Go the loop is unbounded; `loopMod`
below supplies fuel sufficient for every terminating run, i.e. whenever
`0 < dur`.  For `dur ≤ 0` and `dur ≤ x` the Go loop does not terminate.) -/
def loopModAux (dur : ℚ) : ℕ → ℚ → ℚ
  | 0, x => x
  | n + 1, x => if dur ≤ x then loopModAux dur n (x - dur) else x

/-- The Go repeated-subtraction loop, with enough fuel to reach the fixpoint
whenever `0 < dur` (the video duration is positive). -/
def loopMod (dur x : ℚ) : ℚ := loopModAux dur (⌊x / dur⌋.toNat + 1) x

/-- The persisted genesis record: `type Genesis struct { StartTime int64 }`. -/
structure Genesis where
  startTime : ℤ
deriving DecidableEq

/-- Result of `calculateCurrentPosition`:
`(seekTime float64, startNumberHLS, startNumberLLHLS int64)`. -/
structure Position where
  seekTime : ℚ
  startNumberHLS : ℤ
  startNumberLLHLS : ℤ
deriving DecidableEq

/-- `calculateCurrentPosition` (src/main.go lines 316-331), with
`now = time.Now().Unix()` passed explicitly:
`elapsed := float64(now - sm.genesis.StartTime)`;
`seekTime` is `elapsed` reduced by repeated subtraction of the video
duration; the start numbers are `int64(elapsed / SegmentDuration)`,
computed from the global `elapsed`, not from `seekTime`. -/
def calculateCurrentPosition (now : ℤ) (g : Genesis) (videoDuration : ℚ) :
    Position :=
  let elapsed : ℚ := ((now - g.startTime : ℤ) : ℚ)
  { seekTime := loopMod videoDuration elapsed
    startNumberHLS := goTrunc (elapsed / (SegmentDurationHLS : ℚ))
    startNumberLLHLS := goTrunc (elapsed / (SegmentDurationLLHLS : ℚ)) }

/-! ## Supervisor state and lifecycle (src/main.go lines 44-57, 333-437) -/

/-- The supervisor-relevant fields of `StreamManager`:
`isRunning`, whether `ffmpegCmd != nil` (`cmdSet`), whether
`ffmpegCmd.Process != nil` (`procHandle`, set by a successful `Start`),
whether the external process is actually executing (`procAlive`), and
`lastAccess`. -/
structure SMState where
  isRunning : Bool
  cmdSet : Bool
  procHandle : Bool
  procAlive : Bool
  lastAccess : ℚ
deriving DecidableEq

/-- The only error `startFFmpeg` can return:
`fmt.Errorf("failed to start FFmpeg: %v", err)` on launch failure.
There is no playlist-timeout error in the code. -/
inductive StartError
  | launchFailed
deriving DecidableEq

/-- `startFFmpeg` (src/main.go lines 333-406), with the environment made
explicit: `launchOk` is whether `ffmpegCmd.Start()` succeeds and
`playlistAppeared` is whether `stream.m3u8` shows up during the bounded
wait loop (20 × 250 ms).  The code:
* returns `nil` immediately if `isRunning`;
* assigns `sm.ffmpegCmd` (so `cmdSet` becomes true) before launching;
* on launch failure returns the error with `isRunning` and `lastAccess`
  untouched;
* on launch success sets `isRunning = true` and `lastAccess = now`, then
  runs the playlist wait loop and returns `nil` **regardless of whether the
  playlist appeared** — `playlistAppeared` does not influence state or
  return value.
The computed seek offset and start numbers are passed to the external
process as arguments and the stale-segment deletion touches only the file
system; neither affects supervisor state, so they are elided here. -/
def startFFmpeg (launchOk playlistAppeared : Bool) (now : ℚ)
    (st : SMState) : SMState × Option StartError :=
  if st.isRunning then (st, none)
  else
    let st1 : SMState :=
      { st with cmdSet := true, procHandle := false, procAlive := false }
    if launchOk then
      ({ st1 with procHandle := true, procAlive := true,
                  isRunning := true, lastAccess := now }, none)
    else
      (st1, some .launchFailed)

/-- The signal actually delivered to the external process.  `stopFFmpeg`
and the watchdog both use `Process.Kill()` (SIGKILL), never a graceful
termination signal. -/
inductive Signal
  | kill
  | term
deriving DecidableEq

/-- `stopFFmpeg` (src/main.go lines 408-416):
`if sm.ffmpegCmd != nil && sm.ffmpegCmd.Process != nil { Process.Kill() }`
then `sm.isRunning = false`.  No guard on `isRunning`, no wait for exit,
and `sm.ffmpegCmd` is never set back to `nil`.  The second component
records which signal, if any, was sent. -/
def stopFFmpeg (st : SMState) : SMState × Option Signal :=
  if st.cmdSet ∧ st.procHandle then
    ({ st with procAlive := false, isRunning := false }, some .kill)
  else
    ({ st with isRunning := false }, none)

/-- One iteration of the `watchdog` loop body (src/main.go lines 424-437),
run every 5 seconds under the mutex:
`if sm.isRunning && time.Since(sm.lastAccess) > IdleTimeout` then kill the
process (when the handle exists) and set `isRunning = false`; otherwise
leave everything unchanged. -/
def watchdogTick (now : ℚ) (st : SMState) : SMState :=
  if st.isRunning ∧ IdleTimeout < now - st.lastAccess then
    let st1 : SMState :=
      if st.cmdSet ∧ st.procHandle then { st with procAlive := false } else st
    { st1 with isRunning := false }
  else st

/-- A fatal condition reported for the whole application.  No constructor is
ever produced by the embedded code: the reaper reports nothing. -/
inductive Fatal
  | unexpectedExit
deriving DecidableEq

/-- The reaper goroutine `go func() { sm.ffmpegCmd.Wait() }()`
(src/main.go line 392, also spawned on the failure path at line 388): its
body only calls `Wait` to collect the exit status.  Invoked here at the
moment the external process has exited, it changes no supervisor state and
reports no fatal condition — its Go body contains no statement other than
`Wait()`. -/
def reaperOnExit (st : SMState) : SMState × Option Fatal := (st, none)

/-! ## Viewer registry (src/main.go lines 441-494) -/

/-- The two viewer maps of `StreamManager`, modelled as association lists
from client identifier to last-seen instant. -/
structure ViewerState where
  viewersHLS : List (String × ℚ)
  viewersLLHLS : List (String × ℚ)
deriving DecidableEq

/-- The per-map body of `getViewerStats`: keep the identifiers whose
`lastSeen.After(cutoff)` with `cutoff = now - 60s`, then `sort.Strings`. -/
def activeNames (now : ℚ) (m : List (String × ℚ)) : List String :=
  ((m.filter fun e => decide (now - ActivityWindow < e.2)).map Prod.fst).mergeSort
    fun a b => decide (a ≤ b)

/-- `getViewerStats` (src/main.go lines 453-474): under the viewers mutex,
builds the two sorted lists of recently-active identifiers.  It only reads
the maps; the returned `ViewerState` is the unchanged input, reflecting
that the Go function contains no write or delete on either map. -/
def getViewerStats (now : ℚ) (vs : ViewerState) :
    (List String × List String) × ViewerState :=
  ((activeNames now vs.viewersHLS, activeNames now vs.viewersLLHLS), vs)

/-! ## Genesis persistence (src/main.go lines 275-292) -/

/-- What `os.ReadFile("genesis.json")` + `json.Unmarshal` can yield:
the file is absent or unreadable, present but not valid JSON for `Genesis`,
or valid. -/
inductive GenesisFile
  | absent
  | corrupt
  | valid (g : Genesis)
deriving DecidableEq

/-- `loadGenesis` (src/main.go lines 275-292), with `now = time.Now().Unix()`
and the success of `os.WriteFile` passed in as `writeOk`:
* a readable, parseable file yields its record and `nil`;
* otherwise a fresh genesis with `StartTime = now` is created, written out
  with the write error discarded (`writeOk` is ignored), and `nil` is
  returned.  Every path returns `nil`. -/
def loadGenesis (fc : GenesisFile) (now : ℤ) (writeOk : Bool) :
    Genesis × Option String :=
  match fc with
  | .valid g => (g, none)
  | .absent => ({ startTime := now }, none)
  | .corrupt => ({ startTime := now }, none)

/-- The boot check in `main` (src/main.go lines 100-102):
`if err := streamManager.loadGenesis(); err != nil { log.Fatalf(...) }`.
True exactly when the fatal branch is taken. -/
def bootGenesisFatal (fc : GenesisFile) (now : ℤ) (writeOk : Bool) : Bool :=
  ((loadGenesis fc now writeOk).2).isSome

/-! ## Playback controller, modelled from the spec (spec §4.1, §4.3)

The repository's README and dashboard advertise pause/resume/seek controls
(`POST /api/control?action=seek&position=…`), but the handler implementing
them is not part of `src/main.go`; the controller below is modelled from
the spec. -/

/-- Modelled from the spec: the persisted epoch record of spec §3,
`{ originInstant, paused, pausedOffsetSeconds }` (the `Genesis` struct in
`src/main.go` persists only the origin instant; the paused fields belong to
the controller missing from src). -/
structure Epoch where
  originInstant : ℚ
  paused : Bool
  pausedOffsetSeconds : ℚ
deriving DecidableEq

/-- Modelled from the spec: `currentOffset(now, epoch, videoDuration)` of
spec §4.1 — the frozen paused offset when paused, otherwise
`elapsed mod videoDuration` as a floor modulo with negative elapsed
(clock skew) treated as `0`. -/
def currentOffset (now : ℚ) (e : Epoch) (dur : ℚ) : ℚ :=
  if e.paused then e.pausedOffsetSeconds
  else
    let elapsed := now - e.originInstant
    if elapsed < 0 then 0 else elapsed - dur * ⌊elapsed / dur⌋

/-- Modelled from the spec: the seek rejection error of spec §4.3. -/
inductive SeekError
  | invalidSeekTarget
deriving DecidableEq

/-- Modelled from the spec: the controller-visible state — the epoch plus
the supervisor fields seek interacts with (spec §3, §4.3). -/
structure CtrlState where
  epoch : Epoch
  running : Bool
  lastActivityInstant : ℚ
deriving DecidableEq

/-- Modelled from the spec: `seek(targetOffsetSeconds)` of spec §4.3,
which is absent from `src/main.go`.  Requires
`0 ≤ target < videoDuration`, rejecting otherwise with
`InvalidSeekTarget` and no state change.  On success: stop the
supervisor; if paused, set `pausedOffsetSeconds := target` and stay
paused (and stopped); if playing, set `originInstant := now - target`
and start the supervisor immediately (the external launch is taken to
succeed, launch failure being a separate fatal path in spec §4.2). -/
def seek (target now dur : ℚ) (st : CtrlState) : CtrlState × Option SeekError :=
  if 0 ≤ target ∧ target < dur then
    if st.epoch.paused then
      ({ st with
          epoch := { st.epoch with pausedOffsetSeconds := target },
          running := false }, none)
    else
      ({ epoch :=
          { originInstant := now - target, paused := false,
            pausedOffsetSeconds := st.epoch.pausedOffsetSeconds },
         running := true, lastActivityInstant := now }, none)
  else (st, some .invalidSeekTarget)

/-! ## Helper lemmas about the repeated-subtraction loop -/

/-- When the loop guard fails at entry, the loop body never runs. -/
theorem loopModAux_of_lt (dur : ℚ) (n : ℕ) (x : ℚ) (h : x < dur) :
    loopModAux dur n x = x := by
  cases n with
  | zero => rfl
  | succ n => simp [loopModAux, not_le.mpr h]

/-- With sufficient fuel and a positive duration, the loop computes the floor
modulo of a non-negative input. -/
theorem loopModAux_eq (dur : ℚ) (hd : 0 < dur) :
    ∀ (n : ℕ) (x : ℚ), 0 ≤ x → ⌊x / dur⌋.toNat < n →
      loopModAux dur n x = x - dur * ⌊x / dur⌋ := by
  intro n
  induction n with
  | zero => intro x _ hn; exact absurd hn (Nat.not_lt_zero _)
  | succ n ih =>
    intro x hx hn
    by_cases h : dur ≤ x
    · have hx' : 0 ≤ x - dur := sub_nonneg.mpr h
      have hdiv : (x - dur) / dur = x / dur - 1 := by
        rw [sub_div, div_self (ne_of_gt hd)]
      have hfl : ⌊(x - dur) / dur⌋ = ⌊x / dur⌋ - 1 := by
        rw [hdiv]
        exact_mod_cast Int.floor_sub_int (x / dur) 1
      have h1 : 1 ≤ ⌊x / dur⌋ := by
        rw [Int.le_floor]
        push_cast
        rw [le_div_iff₀ hd]
        linarith
      have hn' : ⌊(x - dur) / dur⌋.toNat < n := by
        rw [hfl]; omega
      rw [show loopModAux dur (n + 1) x = if dur ≤ x then
            loopModAux dur n (x - dur) else x from rfl,
        if_pos h, ih (x - dur) hx' hn', hfl]
      push_cast
      ring
    · push_neg at h
      have h0 : ⌊x / dur⌋ = 0 := by
        rw [Int.floor_eq_zero_iff]
        exact Set.mem_Ico.mpr ⟨div_nonneg hx hd.le, (div_lt_one hd).mpr h⟩
      rw [show loopModAux dur (n + 1) x = if dur ≤ x then
            loopModAux dur n (x - dur) else x from rfl,
        if_neg (not_le.mpr h), h0]
      ring

/-- The Go loop computes the floor modulo of a non-negative elapsed value. -/
theorem loopMod_eq (dur x : ℚ) (hd : 0 < dur) (hx : 0 ≤ x) :
    loopMod dur x = x - dur * ⌊x / dur⌋ :=
  loopModAux_eq dur hd _ x hx (Nat.lt_succ_self _)

/-- If the input is already below the duration, the loop returns it
unchanged — including strictly negative inputs. -/
theorem loopMod_of_lt (dur x : ℚ) (h : x < dur) : loopMod dur x = x :=
  loopModAux_of_lt dur _ x h

/-- Bounds of the loop result for non-negative input and positive duration. -/
theorem loopMod_bounds (dur x : ℚ) (hd : 0 < dur) (hx : 0 ≤ x) :
    0 ≤ loopMod dur x ∧ loopMod dur x < dur := by
  rw [loopMod_eq dur x hd hx]
  have h1 : (⌊x / dur⌋ : ℚ) * dur ≤ x := by
    rw [← le_div_iff₀ hd]
    exact Int.floor_le _
  have h2 : x < ((⌊x / dur⌋ : ℚ) + 1) * dur := by
    rw [← div_lt_iff₀ hd]
    exact Int.lt_floor_add_one _
  constructor
  · nlinarith
  · nlinarith

/-! ## Claim C2 — playback offset -/

/-- Claim C2, amended: for positive `videoDuration`, the computed playback
offset equals the floor modulo `elapsed - dur * ⌊elapsed / dur⌋` whenever
`now ≥ originInstant`, and then lies in `[0, dur)`; for
`elapsed = k * dur + r` with `0 ≤ r < dur` the offset is `r`; but when
`now < originInstant` (clock skew) the code returns the negative `elapsed`
unchanged — it does not clamp to `0`. -/
theorem calculateCurrentPosition_offset (origin now : ℤ) (dur : ℚ)
    (hd : 0 < dur) :
    (0 ≤ now - origin →
       (calculateCurrentPosition now ⟨origin⟩ dur).seekTime
         = ((now - origin : ℤ) : ℚ) - dur * ⌊((now - origin : ℤ) : ℚ) / dur⌋
       ∧ 0 ≤ (calculateCurrentPosition now ⟨origin⟩ dur).seekTime
       ∧ (calculateCurrentPosition now ⟨origin⟩ dur).seekTime < dur)
    ∧ (∀ (k : ℕ) (r : ℚ), 0 ≤ r → r < dur →
         ((now - origin : ℤ) : ℚ) = k * dur + r →
         (calculateCurrentPosition now ⟨origin⟩ dur).seekTime = r)
    ∧ (now - origin < 0 →
         (calculateCurrentPosition now ⟨origin⟩ dur).seekTime
           = ((now - origin : ℤ) : ℚ)) := by
  have hsk : (calculateCurrentPosition now ⟨origin⟩ dur).seekTime
      = loopMod dur ((now - origin : ℤ) : ℚ) := rfl
  refine ⟨fun h0 => ?_, fun k r hr0 hrd hkr => ?_, fun hneg => ?_⟩
  · have h0' : (0 : ℚ) ≤ ((now - origin : ℤ) : ℚ) := by exact_mod_cast h0
    rw [hsk]
    exact ⟨loopMod_eq dur _ hd h0', (loopMod_bounds dur _ hd h0').1,
      (loopMod_bounds dur _ hd h0').2⟩
  · have h0' : (0 : ℚ) ≤ ((now - origin : ℤ) : ℚ) := by
      rw [hkr]; positivity
    rw [hsk, loopMod_eq dur _ hd h0', hkr]
    have hr : ⌊r / dur⌋ = 0 := by
      rw [Int.floor_eq_zero_iff]
      exact Set.mem_Ico.mpr ⟨div_nonneg hr0 hd.le, (div_lt_one hd).mpr hrd⟩
    have hfloor : ⌊((k : ℚ) * dur + r) / dur⌋ = (k : ℤ) := by
      rw [add_div, mul_div_cancel_right₀ _ (ne_of_gt hd)]
      rw [show ((k : ℚ) = ((k : ℤ) : ℚ)) from by push_cast; ring]
      rw [Int.floor_int_add, hr, add_zero]
    rw [hfloor]
    push_cast
    ring
  · have hneg' : ((now - origin : ℤ) : ℚ) < dur := by
      have : ((now - origin : ℤ) : ℚ) < 0 := by exact_mod_cast hneg
      linarith
    rw [hsk, loopMod_of_lt dur _ hneg']

/-- Claim C2, counterexample to the claim as stated: with
`originInstant = 5`, `now = 0` (clock skew) and `videoDuration = 100`, the
code returns offset `-5`, not `0`, so the offset is neither clamped nor in
`[0, videoDuration)`. -/
theorem seekTime_negative_elapsed_cex :
    (calculateCurrentPosition 0 ⟨5⟩ 100).seekTime = -5 ∧
    (calculateCurrentPosition 0 ⟨5⟩ 100).seekTime ≠ 0 := by
  have h : (calculateCurrentPosition 0 ⟨5⟩ 100).seekTime = -5 := by
    simp only [calculateCurrentPosition]
    rw [loopMod_of_lt] <;> norm_num
  exact ⟨h, by rw [h]; norm_num⟩

/-- Claim C2, witness: the spec scenario `videoDuration = 100`,
`elapsed = 250 = 2·100 + 50` yields offset `50`. -/
theorem calculateCurrentPosition_offset_witness :
    (calculateCurrentPosition 250 ⟨0⟩ 100).seekTime = 50 :=
  (calculateCurrentPosition_offset 0 250 100 (by norm_num)).2.1 2 50
    (by norm_num) (by norm_num) (by push_cast; norm_num)

/-! ## Claim C1 — segment sequence numbers -/

/-- Claim C1, counterexample to the claim as stated: with
`videoDuration = 100`, `originInstant = t0 = 0` and `now = t0 + 250`, the
4-second profile's start number is `62 = trunc(250 / 4)`, computed from the
global elapsed time, not `12 = floor(50 / 4)` from the offset within the
current loop. -/
theorem startNumberHLS_not_loop_relative_cex :
    (calculateCurrentPosition 250 ⟨0⟩ 100).startNumberHLS = 62 ∧
    (calculateCurrentPosition 250 ⟨0⟩ 100).startNumberHLS ≠ 12 := by
  have h : (calculateCurrentPosition 250 ⟨0⟩ 100).startNumberHLS = 62 := by
    simp only [calculateCurrentPosition, goTrunc, SegmentDurationHLS]
    norm_num
  exact ⟨h, by rw [h]; norm_num⟩

/-- Claim C1, amended: the segment sequence number is derived from the
global elapsed time `now - originInstant`, not from the offset within the
current loop: it is monotone in `now` (so it does not reset to near zero
when the loop wraps), it does not depend on the video duration at all, and
in the concrete scenario (`originInstant = 0`, `now = 250`,
`videoDuration = 100`) the 4-second profile's number is `62`. -/
theorem startNumberHLS_global_monotone (origin now1 now2 : ℤ) (dur1 dur2 : ℚ)
    (h0 : origin ≤ now1) (h12 : now1 ≤ now2) :
    (calculateCurrentPosition now1 ⟨origin⟩ dur1).startNumberHLS
      ≤ (calculateCurrentPosition now2 ⟨origin⟩ dur1).startNumberHLS ∧
    (calculateCurrentPosition now1 ⟨origin⟩ dur1).startNumberHLS
      = (calculateCurrentPosition now1 ⟨origin⟩ dur2).startNumberHLS ∧
    (calculateCurrentPosition 250 ⟨0⟩ 100).startNumberHLS = 62 := by
  refine ⟨?_, rfl, ?_⟩
  · have he1 : (0 : ℚ) ≤ ((now1 - origin : ℤ) : ℚ) := by
      exact_mod_cast sub_nonneg.mpr h0
    have hle : ((now1 - origin : ℤ) : ℚ) ≤ ((now2 - origin : ℤ) : ℚ) := by
      exact_mod_cast sub_le_sub_right h12 origin
    simp only [calculateCurrentPosition, goTrunc, SegmentDurationHLS]
    have h4 : (0 : ℚ) < ((4 : ℤ) : ℚ) := by norm_num
    rw [if_pos (div_nonneg he1 h4.le), if_pos (div_nonneg (he1.trans hle) h4.le)]
    exact Int.floor_le_floor (div_le_div_of_nonneg_right hle h4.le)
  · simp only [calculateCurrentPosition, goTrunc, SegmentDurationHLS]
    norm_num

/-- Claim C1, witness: instantiation of the amended claim at
`origin = 0`, `now1 = 100 ≤ now2 = 250`, durations `100` and `7`. -/
theorem startNumberHLS_global_monotone_witness :
    (calculateCurrentPosition 100 ⟨0⟩ 100).startNumberHLS
      ≤ (calculateCurrentPosition 250 ⟨0⟩ 100).startNumberHLS ∧
    (calculateCurrentPosition 100 ⟨0⟩ 100).startNumberHLS
      = (calculateCurrentPosition 100 ⟨0⟩ 7).startNumberHLS ∧
    (calculateCurrentPosition 250 ⟨0⟩ 100).startNumberHLS = 62 :=
  startNumberHLS_global_monotone 0 100 250 100 7 (by norm_num) (by norm_num)

/-! ## Claim C3 — playlist timeout on start -/

/-- Claim C3, counterexample to the claim as stated: starting from the
stopped state with a successful launch but the playlist never appearing
during the bounded wait, `startFFmpeg` returns success (`none`), not a
playlist-timeout failure, and the supervisor ends up running, not stopped. -/
theorem startFFmpeg_playlist_timeout_cex :
    (startFFmpeg true false 7 ⟨false, false, false, false, 0⟩).2 = none ∧
    (startFFmpeg true false 7 ⟨false, false, false, false, 0⟩).1.isRunning = true := by
  decide

/-- Claim C3, amended: when the launch succeeds, `startFFmpeg` returns
success and leaves the supervisor running with `lastAccess` stamped,
regardless of whether the primary playlist appeared within the bounded
wait; no playlist-timeout error exists in the code. -/
theorem startFFmpeg_playlist_ignored (st : SMState) (now : ℚ) (pa : Bool)
    (h : st.isRunning = false) :
    (startFFmpeg true pa now st).2 = none ∧
    (startFFmpeg true pa now st).1.isRunning = true ∧
    (startFFmpeg true pa now st).1.lastAccess = now := by
  simp [startFFmpeg, h]

/-- Claim C3, witness: concrete instantiation of the amended claim with
the playlist not appearing. -/
theorem startFFmpeg_playlist_ignored_witness :
    (startFFmpeg true false 7 ⟨false, false, false, false, 3⟩).2 = none ∧
    (startFFmpeg true false 7 ⟨false, false, false, false, 3⟩).1.isRunning = true ∧
    (startFFmpeg true false 7 ⟨false, false, false, false, 3⟩).1.lastAccess = 7 :=
  startFFmpeg_playlist_ignored ⟨false, false, false, false, 3⟩ 7 false rfl

/-! ## Claim C4 — idle watchdog -/

/-- Claim C4, confirmed: when the supervisor is running and more than
`IdleTimeout = 30` seconds have passed since `lastAccess`, a watchdog tick
kills the process and sets `isRunning := false`; when activity was within
the timeout, the tick changes nothing. -/
theorem watchdogTick_idle_stop (now : ℚ) (st : SMState) :
    (st.isRunning = true → st.cmdSet = true → st.procHandle = true →
       IdleTimeout < now - st.lastAccess →
       (watchdogTick now st).isRunning = false ∧
       (watchdogTick now st).procAlive = false) ∧
    (now - st.lastAccess ≤ IdleTimeout → watchdogTick now st = st) := by
  constructor
  · intro h1 h2 h3 h4
    simp [watchdogTick, h1, h2, h3, h4]
  · intro h
    have hc : ¬(st.isRunning = true ∧ IdleTimeout < now - st.lastAccess) :=
      fun hc => absurd hc.2 (not_lt.mpr h)
    simp only [watchdogTick, if_neg hc]

/-- Claim C4, witness: with `lastAccess = 0`, a tick at `now = 100` stops a
running supervisor and kills the process, while a tick at `now = 10`
leaves the state untouched. -/
theorem watchdogTick_idle_stop_witness :
    ((watchdogTick 100 ⟨true, true, true, true, 0⟩).isRunning = false ∧
     (watchdogTick 100 ⟨true, true, true, true, 0⟩).procAlive = false) ∧
    watchdogTick 10 ⟨true, true, true, true, 0⟩ = ⟨true, true, true, true, 0⟩ :=
  ⟨(watchdogTick_idle_stop 100 ⟨true, true, true, true, 0⟩).1 rfl rfl rfl
      (by norm_num [IdleTimeout]),
   (watchdogTick_idle_stop 10 ⟨true, true, true, true, 0⟩).2
      (by norm_num [IdleTimeout])⟩

/-! ## Claim C6 — stop -/

/-- Claim C6, counterexample to the claim as stated: stopping a running
supervisor leaves the process handle in place (`cmdSet` stays true, never
cleared) and sends the forceful kill signal, not a graceful termination
signal; moreover in a stopped state that still holds a handle (for example
after a watchdog stop) `stopFFmpeg` is not a no-op — it again sends a kill
signal. -/
theorem stopFFmpeg_cex :
    (stopFFmpeg ⟨true, true, true, true, 0⟩).1.cmdSet = true ∧
    (stopFFmpeg ⟨true, true, true, true, 0⟩).2 = some Signal.kill ∧
    (stopFFmpeg ⟨false, true, true, false, 3⟩).2 = some Signal.kill := by
  decide

/-- Claim C6, amended: `stopFFmpeg` sets `isRunning := false`
unconditionally, and whenever a process handle is present — even when the
supervisor is already stopped — it sends the forceful kill signal without
waiting for exit; it never clears the process handle. -/
theorem stopFFmpeg_unconditional (st : SMState) :
    (stopFFmpeg st).1.isRunning = false ∧
    (stopFFmpeg st).1.cmdSet = st.cmdSet ∧
    (stopFFmpeg st).1.procHandle = st.procHandle ∧
    (stopFFmpeg st).1.lastAccess = st.lastAccess ∧
    (stopFFmpeg st).2
      = if st.cmdSet ∧ st.procHandle then some Signal.kill else none := by
  by_cases h : st.cmdSet = true ∧ st.procHandle = true <;>
    simp [stopFFmpeg, h]

/-! ## Claim C7 — reaper -/

/-- Claim C7, counterexample to the claim as stated: when the external
process has exited while the supervisor still believes it is running, the
reaper reports no fatal condition and the supervisor stays running with a
dead process. -/
theorem reaperOnExit_cex :
    (reaperOnExit ⟨true, true, true, false, 0⟩).2 = none ∧
    (reaperOnExit ⟨true, true, true, false, 0⟩).1.isRunning = true := by
  decide

/-- Claim C7, amended: the reaper goroutine only collects the exit status;
it changes no state and reports nothing, for every supervisor state —
including an unexpected exit while believed running. -/
theorem reaperOnExit_no_report (st : SMState) : reaperOnExit st = (st, none) :=
  rfl

/-! ## Claim C8 — launch failure -/

/-- Claim C8, confirmed: when `startFFmpeg` is called from the stopped
state and the launch fails, it returns the launch-failure error to its
caller, the supervisor remains stopped, and `lastAccess` is not stamped. -/
theorem startFFmpeg_launch_failure (st : SMState) (pa : Bool) (now : ℚ)
    (h : st.isRunning = false) :
    (startFFmpeg false pa now st).2 = some StartError.launchFailed ∧
    (startFFmpeg false pa now st).1.isRunning = false ∧
    (startFFmpeg false pa now st).1.lastAccess = st.lastAccess := by
  simp [startFFmpeg, h]

/-- Claim C8, witness: concrete instantiation of the launch-failure path. -/
theorem startFFmpeg_launch_failure_witness :
    (startFFmpeg false true 9 ⟨false, false, false, false, 4⟩).2
      = some StartError.launchFailed ∧
    (startFFmpeg false true 9 ⟨false, false, false, false, 4⟩).1.isRunning = false ∧
    (startFFmpeg false true 9 ⟨false, false, false, false, 4⟩).1.lastAccess = 4 :=
  startFFmpeg_launch_failure ⟨false, false, false, false, 4⟩ true 9 rfl

/-! ## Claim C9 — viewer stats -/

/-- Membership in the sorted active list is exactly recent activity:
`now - lastSeen < ActivityWindow`, strictly. -/
theorem mem_activeNames (now : ℚ) (m : List (String × ℚ)) (ip : String) :
    ip ∈ activeNames now m ↔ ∃ t, (ip, t) ∈ m ∧ now - t < ActivityWindow := by
  unfold activeNames
  rw [(List.mergeSort_perm _ _).mem_iff]
  simp only [List.mem_map, List.mem_filter, decide_eq_true_eq]
  constructor
  · rintro ⟨⟨a, b⟩, ⟨hm, hlt⟩, rfl⟩
    exact ⟨b, hm, by linarith⟩
  · rintro ⟨t, hm, hlt⟩
    exact ⟨(ip, t), ⟨hm, by linarith⟩, rfl⟩

/-- Claim C9, confirmed: for each profile, the reported active viewers are
exactly the clients with `now - lastSeen < ActivityWindow` (strictly, so a
client recorded at `t0` is counted before `t0 + 60` and not from
`t0 + 60` on), and computing the stats deletes nothing — the viewer maps
are returned unchanged. -/
theorem getViewerStats_active_iff (now : ℚ) (vs : ViewerState) (ip : String) :
    (ip ∈ (getViewerStats now vs).1.1 ↔
       ∃ t, (ip, t) ∈ vs.viewersHLS ∧ now - t < ActivityWindow) ∧
    (ip ∈ (getViewerStats now vs).1.2 ↔
       ∃ t, (ip, t) ∈ vs.viewersLLHLS ∧ now - t < ActivityWindow) ∧
    (getViewerStats now vs).2 = vs :=
  ⟨mem_activeNames now vs.viewersHLS ip, mem_activeNames now vs.viewersLLHLS ip, rfl⟩

/-! ## Claim C10 — genesis loading -/

/-- Claim C10, confirmed: `loadGenesis` returns success for every file
content — a valid file yields its record, while a corrupt or absent file is
silently replaced by a fresh epoch whose origin is the current time with
any persistence error ignored — so the boot-time fatal branch for genesis
loading is unreachable. -/
theorem loadGenesis_never_fails (fc : GenesisFile) (now : ℤ) (wo : Bool) :
    (loadGenesis fc now wo).2 = none ∧
    bootGenesisFatal fc now wo = false ∧
    (loadGenesis GenesisFile.absent now wo).1 = ⟨now⟩ ∧
    (loadGenesis GenesisFile.corrupt now wo).1 = ⟨now⟩ ∧
    ∀ g, (loadGenesis (GenesisFile.valid g) now wo).1 = g := by
  refine ⟨?_, ?_, rfl, rfl, fun g => rfl⟩ <;> cases fc <;> rfl

/-! ## Claim C5 — seek bounds (spec-modelled) -/

/-- Evaluation of the spec-modelled offset for an unpaused epoch. -/
theorem currentOffset_play (now o dur po : ℚ) :
    currentOffset now ⟨o, false, po⟩ dur =
      if now - o < 0 then 0 else (now - o) - dur * ⌊(now - o) / dur⌋ := by
  simp [currentOffset]

/-- Claim C5, confirmed against the spec-modelled controller:
`seek x` with `0 ≤ x < videoDuration` succeeds and the current offset
immediately reflects `x` (whether paused or playing), while
`seek videoDuration` and `seek (-1)` both fail with the invalid-seek-target
error and leave the whole state (epoch and supervisor fields) unchanged. -/
theorem seek_bounds (dur now x : ℚ) (st : CtrlState) (hd : 0 < dur) :
    (0 ≤ x → x < dur →
       (seek x now dur st).2 = none ∧
       currentOffset now (seek x now dur st).1.epoch dur = x) ∧
    ((seek dur now dur st).2 = some SeekError.invalidSeekTarget ∧
       (seek dur now dur st).1 = st) ∧
    ((seek (-1) now dur st).2 = some SeekError.invalidSeekTarget ∧
       (seek (-1) now dur st).1 = st) := by
  refine ⟨fun h0 h1 => ?_, ?_, ?_⟩
  · by_cases hp : st.epoch.paused = true
    · refine ⟨by simp [seek, h0, h1, hp], ?_⟩
      have hseek : (seek x now dur st).1.epoch
          = ⟨st.epoch.originInstant, st.epoch.paused, x⟩ := by
        simp [seek, h0, h1, hp]
      rw [hseek]
      simp [currentOffset, hp]
    · refine ⟨by simp [seek, h0, h1, hp], ?_⟩
      have hseek : (seek x now dur st).1.epoch
          = ⟨now - x, false, st.epoch.pausedOffsetSeconds⟩ := by
        simp [seek, h0, h1, hp]
      rw [hseek, currentOffset_play]
      rw [show now - (now - x) = x from by ring]
      rw [if_neg (not_lt.mpr h0)]
      have hfl : ⌊x / dur⌋ = 0 := by
        rw [Int.floor_eq_zero_iff]
        exact Set.mem_Ico.mpr ⟨div_nonneg h0 hd.le, (div_lt_one hd).mpr h1⟩
      rw [hfl]
      push_cast
      ring
  · have hc : ¬(0 ≤ dur ∧ dur < dur) := fun hcc => lt_irrefl dur hcc.2
    exact ⟨by simp [seek, hc], by simp [seek, hc]⟩
  · have hc : ¬((0 : ℚ) ≤ -1 ∧ (-1 : ℚ) < dur) := fun hcc => by norm_num at hcc
    constructor
    · unfold seek
      rw [if_neg hc]
    · unfold seek
      rw [if_neg hc]

/-- Claim C5, witness: the spec scenario — `videoDuration = 100`, playing
epoch, `seek 10` at `now = 250` succeeds and the offset immediately reads
back as `10`. -/
theorem seek_bounds_witness :
    (seek 10 250 100 ⟨⟨0, false, 0⟩, false, 0⟩).2 = none ∧
    currentOffset 250 (seek 10 250 100 ⟨⟨0, false, 0⟩, false, 0⟩).1.epoch 100 = 10 :=
  (seek_bounds 100 250 10 ⟨⟨0, false, 0⟩, false, 0⟩ (by norm_num)).1
    (by norm_num) (by norm_num)

end VTV
